import Mathlib

/-!
Shallow embedding of `pandas_latex` (file `src/pandas_latex/__init__.py`).

The module formats a labelled two-dimensional dataset (a `pandas.DataFrame`)
as LaTeX table lines.  The embedding below translates the module's pure
logic: the `escape` function (a lookbehind-guarded regex substitution), the
escape-policy resolution of `TableFormatter._escape`, the column
specification builder `TableFormatter._colspec`, the rule emitter
`TableFormatter._rule`, the default header/row renderers, and the
`TableFormatter.format` generator.  Cell values are modelled as strings
(the source coerces every value with `str()` before or during escaping),
and row/column labels as either flat strings or tuples of strings
(`pd.MultiIndex` labels).  The generator's mutable `_to_escape` attribute is
modelled by explicit state passing: `formatRun` returns the produced lines
together with the formatter state and the caller-visible dataset after the
run, and `toEscapeAfter` gives the `_to_escape` attribute after a caller
consumes a prefix of the lazily produced lines and abandons the iteration.
-/

/-- A row or column label: either a flat string, or a tuple of strings as
produced for a `pd.MultiIndex` level (the tuple branch of `escape`). -/
inductive Label where
  | flat (s : String)
  | multi (parts : List String)
deriving DecidableEq

/-- The dataset read by the formatter: its `name` attribute (defaulting to
the empty string, as in `getattr(df, 'name', '')`), the ordered column
labels, and the rows, each an index label plus the cell values of the
`C` data columns, coerced to text. -/
structure DF where
  name : Label := Label.flat ""
  columns : List Label := []
  rows : List (Label × List String) := []
deriving DecidableEq

/-- Membership test `e in df.columns` for a string selector item: a flat
column label matches by equality; for a `pd.MultiIndex` the containment
check matches the first level of the label. -/
def DF.hasCol (df : DF) (e : String) : Bool :=
  df.columns.any fun c =>
    match c with
    | Label.flat s => s == e
    | Label.multi ps => ps.headD "" == e

/-- The seven characters replaced by `_escape_re`, the pattern
`(?<!\\)([#$%&_{}])`. -/
def specials : List Char := ['#', '$', '%', '&', '_', '\x7b', '\x7d']

/-- One left-to-right pass of `_escape_re.sub(_escape_repl, text)`:
a special character is replaced by a backslash-prefixed copy unless the
character standing immediately before it in the source text is a
backslash (the lookbehind inspects the original text, so `prev` is always
the previous source character). -/
def escapeChars : Option Char → List Char → List Char
  | _, [] => []
  | prev, c :: rest =>
    if c ∈ specials ∧ prev ≠ some '\\' then
      '\\' :: c :: escapeChars (some c) rest
    else
      c :: escapeChars (some c) rest

/-- String form of the substitution pass. -/
def escapeString (s : String) : String := String.mk (escapeChars none s.data)

/-- The scalar branch of `escape`: `_escape_re.sub(...) if go else str(text)`. -/
def escStr (go : Bool) (s : String) : String := if go then escapeString s else s

/-- The public `escape(text, go=True)`: a tuple label is escaped
element-wise, any other value is coerced to text and passed through the
substitution (or returned unmodified when `go` is false). -/
def escape (text : Label) (go : Bool := true) : Label :=
  match text with
  | Label.multi parts => Label.multi (parts.map (escStr go))
  | Label.flat s => Label.flat (escStr go s)

/-- The public `line(*entries)`: join with `" & "` and append `" \\"`. -/
def line (entries : List String) : String :=
  String.intercalate " & " entries ++ " \\\\"

/-- `_lines`: wrap a plain string in a one-element list (a callback may
also return a list of lines, which is passed through). -/
def linesOfValue : Sum String (List String) → List String
  | Sum.inl s => [s]
  | Sum.inr l => l

/-- `_comma_sep`: collapse a tuple label to a comma-separated string. -/
def commaSep (value : Label) : String :=
  match value with
  | Label.multi parts => String.intercalate ", " parts
  | Label.flat s => s

/-- The `Escape` flag class: a combination of the four atomic members
`NAME`, `COLUMNS`, `INDEX`, `CELLS`.  `Escape.unpack` of a combined value
yields exactly the atomic members contained in it, which here is just the
four boolean fields. -/
structure EscFlag where
  name : Bool := false
  columns : Bool := false
  index : Bool := false
  cells : Bool := false
deriving DecidableEq

/-- `Escape.NAME`. -/
def EscFlag.NAME : EscFlag := { name := true }

/-- `Escape.COLUMNS`. -/
def EscFlag.COLUMNS : EscFlag := { columns := true }

/-- `Escape.INDEX`. -/
def EscFlag.INDEX : EscFlag := { index := true }

/-- `Escape.CELLS`. -/
def EscFlag.CELLS : EscFlag := { cells := true }

/-- `Escape.ALL = NAME | COLUMNS | INDEX | CELLS`. -/
def EscFlag.ALL : EscFlag :=
  { name := true, columns := true, index := true, cells := true }

/-- One item of the `escape` configuration attribute: either an `Escape`
flag value or a string naming a column. -/
inductive EscItem where
  | flag (f : EscFlag)
  | col (s : String)
deriving DecidableEq

/-- The resolved `_to_escape` set: which of the four atomic `Escape`
members it contains, plus the column labels it contains. -/
structure ToEscape where
  name : Bool := false
  columns : Bool := false
  index : Bool := false
  cells : Bool := false
  cols : List Label := []
deriving DecidableEq

/-- Adding an element to the Python set `to_escape` (only membership is
ever queried, so a duplicate-free list models the set). -/
def insertLabel (l : Label) (ls : List Label) : List Label :=
  if l ∈ ls then ls else ls ++ [l]

/-- `to_escape.update(Escape.unpack(e))`: add the atomic members of `e`. -/
def mergeFlag (te : ToEscape) (f : EscFlag) : ToEscape :=
  { te with
    name := te.name || f.name
    columns := te.columns || f.columns
    index := te.index || f.index
    cells := te.cells || f.cells }

/-- `to_escape.add(e)` for a column-name item. -/
def addCol (te : ToEscape) (s : String) : ToEscape :=
  { te with cols := insertLabel (Label.flat s) te.cols }

/-- The loop body of `_escape`'s first run: flag items are unpacked into
the set, an item found in `df.columns` is added and marks
`discard_cells`, and any other item raises
`ValueError("don't know how to escape '%s'" % e)`. -/
def resolveLoop (df : DF) (te : ToEscape) (discard : Bool) :
    List EscItem → Except String (ToEscape × Bool)
  | [] => Except.ok (te, discard)
  | EscItem.flag f :: rest => resolveLoop df (mergeFlag te f) discard rest
  | EscItem.col s :: rest =>
    if df.hasCol s then resolveLoop df (addCol te s) true rest
    else Except.error ("don\x27t know how to escape \x27" ++ s ++ "\x27")

/-- The full first-run computation of `_escape`: run the loop over the
configured items, then discard `Escape.CELLS` when an explicit column was
given, then expand a remaining `Escape.CELLS` to every column label. -/
def resolveEscape (sel : List EscItem) (df : DF) : Except String ToEscape :=
  match resolveLoop df {} false sel with
  | Except.error e => Except.error e
  | Except.ok (te, discard) =>
    let te := if discard then { te with cells := false } else te
    let te :=
      if te.cells then
        { te with cols := df.columns.foldl (fun cs c => insertLabel c cs) te.cols }
      else te
    Except.ok te

/-- Escaping decision for the cells of a data column: the column label is
looked up in the resolved set (`value.name in self._to_escape`). -/
def cellGo (te : ToEscape) (c : Label) : Bool := decide (c ∈ te.cols)

/-- The `coltype` attribute: either a string or an explicit sequence
(`list`/`tuple`) of column-type tokens. -/
inductive Coltype where
  | str (s : String)
  | seq (l : List String)
deriving DecidableEq

/-- Expansion of a length-2 string coltype into `coltype[0] + n_cols *
coltype[1]`; any other string is used as is. -/
def expandColtype (s : List Char) (n : Nat) : List Char :=
  match s with
  | [a, b] => a :: List.replicate n b
  | other => other

/-- The accumulation loop of `_colspec`: walk the tokens by position and
prepend `'|'` to a token whose position is in `clines`. -/
def buildSpecFrom (clines : List Nat) : Nat → List String → String
  | _, [] => ""
  | n, t :: ts => (if n ∈ clines then "|" else "") ++ t ++ buildSpecFrom clines (n + 1) ts

/-- The `ValueError` message of `_colspec` for an explicit sequence of the
wrong length, reporting the given length and the data-column count. -/
def coltypeLenErr (given ncols : Nat) : String :=
  "coltype has length " ++ toString given ++ " != " ++ toString ncols ++
    " data columns + index"

/-- The `TableFormatter` configuration together with its mutable
`_to_escape` attribute (field `to_escape`).  Defaults are the class
attribute defaults of the source. -/
structure TF where
  env : String := "tabular"
  coltype : Coltype := Coltype.str "lc"
  clines : List Nat := []
  booktabs : Bool := true
  escape : List EscItem := [EscItem.flag EscFlag.ALL]
  preamble : List String := []
  before_header : List String := []
  before_repeat_header : List String := []
  to_escape : Option ToEscape := none
deriving DecidableEq

/-- `TableFormatter._colspec`: a length-2 string is expanded, an explicit
`list`/`tuple` must have length `n_cols + 1` (a string of any other
length is used without validation), and the tokens are concatenated with
column lines inserted at the positions in `clines`. -/
def colspec (tf : TF) (df : DF) : Except String String :=
  let n := df.columns.length
  match tf.coltype with
  | Coltype.str s =>
    Except.ok (buildSpecFrom tf.clines 0 ((expandColtype s.data n).map String.singleton))
  | Coltype.seq l =>
    if l.length ≠ n + 1 then Except.error (coltypeLenErr l.length n)
    else Except.ok (buildSpecFrom tf.clines 0 l)

/-- `TableFormatter._rule`: booktabs gives a position-specific rule,
otherwise every position gives `\hline`. -/
def TF.rule (tf : TF) (which : String) : String :=
  if tf.booktabs then "\\" ++ which ++ "rule" else "\\hline"

/-- `TableFormatter._header` with the default header callback: the name
escaped per the `NAME` flag and each column label escaped per the
`COLUMNS` flag, comma-collapsed and joined by `line`. -/
def headerLine (te : ToEscape) (df : DF) : String :=
  line (commaSep (escape df.name te.name) ::
    df.columns.map fun c => commaSep (escape c te.columns))

/-- `_lines` applied to the default header callback's single string. -/
def headerLines (te : ToEscape) (df : DF) : List String := [headerLine te df]

/-- One data row as emitted by `format`: the cells are first escaped
column-wise (`df.apply
lambda column: self._escape(None, column)`, active for columns whose
label is in the resolved set), then `_row` escapes the index label per
the `INDEX` flag and renders with the default row callback. -/
def rowLine (te : ToEscape) (df : DF) (r : Label × List String) : String :=
  line (commaSep (escape r.1 te.index) ::
    (df.columns.zip r.2).map fun cv => escStr (cellGo te cv.1) cv.2)

/-- The cache check at the top of `_escape`: reuse a previously stored
`_to_escape`, otherwise compute it from the configuration and dataset. -/
def cachedResolve (tf : TF) (df : DF) : Except String ToEscape :=
  match tf.to_escape with
  | some t => Except.ok t
  | none => resolveEscape tf.escape df

/-- `TableFormatter.format(df)`, run to exhaustion: the produced lines,
the formatter state after the generator's trailing
`self._to_escape = None`, and the caller-visible dataset after the run
(cell escaping is applied to the new frame returned by `df.apply`, so the
input dataset is handed back unchanged).  A `ValueError` from `_colspec`
or from the escape resolution surfaces as an `Except.error`. -/
def formatRun (tf : TF) (df : DF) : Except String (List String × TF × DF) :=
  match colspec tf df with
  | Except.error e => Except.error e
  | Except.ok spec =>
    match cachedResolve tf df with
    | Except.error e => Except.error e
    | Except.ok te =>
      let beginL := "\\begin\x7b" ++ tf.env ++ "\x7d\x7b" ++ spec ++ "\x7d"
      let endL := "\\end\x7b" ++ tf.env ++ "\x7d"
      let hdr := headerLines te df
      let rows := df.rows.map (rowLine te df)
      let body :=
        if tf.env == "longtable" then
          tf.preamble ++ [beginL] ++ tf.before_header ++
            [tf.rule "top"] ++ hdr ++ [tf.rule "mid"] ++
            ["\\endfirsthead"] ++ tf.before_repeat_header ++
            [tf.rule "top"] ++ hdr ++ [tf.rule "mid"] ++ ["\\endhead"] ++
            [tf.rule "bottom"] ++ ["\\endfoot"] ++
            rows ++ [endL, ""]
        else
          tf.preamble ++ [beginL] ++ tf.before_header ++
            [tf.rule "top"] ++ hdr ++ [tf.rule "mid"] ++
            rows ++ [tf.rule "bottom"] ++ [endL, ""]
      Except.ok (body, { tf with to_escape := none }, df)

/-- The lines of a run, or `[]` on a configuration error. -/
def linesOf : Except String (List String × TF × DF) → List String
  | Except.ok r => r.1
  | Except.error _ => []

/-- Total number of lines produced by a complete run. -/
def numLines (tf : TF) (df : DF) : Nat := (linesOf (formatRun tf df)).length

/-- Whether a result is a raised error. -/
def isError {α : Type} : Except String α → Bool
  | Except.error _ => true
  | Except.ok _ => false

/-- The `_to_escape` attribute left on the formatter after the caller has
consumed `k` lines of `format(df)` and then abandoned the iteration.
The generator suspends at each `yield`; `_to_escape` is assigned while
computing the header, which happens when the line after the optional
`before_header` block (the top rule) is produced, and is reset to `None`
only by the statement after the final `yield`, reached only when the
caller requests one more item than the generator produces.  Closing an
abandoned generator raises `GeneratorExit` at the suspension point, so
the trailing reset is skipped. -/
def toEscapeAfter (tf : TF) (df : DF) (k : Nat) : Option ToEscape :=
  if k ≤ tf.preamble.length + 1 + tf.before_header.length then tf.to_escape
  else if k ≤ numLines tf df then (cachedResolve tf df).toOption
  else none

/-- The caller-visible dataset after `format(df)` has been consumed: the
source never assigns into `df` (escaping uses the copy returned by
`df.apply`), and on a raised configuration error the dataset is likewise
untouched. -/
def returnedDf (tf : TF) (df : DF) : DF :=
  match formatRun tf df with
  | Except.ok r => r.2.2
  | Except.error _ => df

/-- The default-constructed `TableFormatter()`. -/
def defaultTF : TF := {}

/-- The dataset of the test suite: rows `[["foo", 0, 1], ["bar", 2, 3]]`
with index labels `foo`, `bar` and columns `col_one`, `coltwo`. -/
def dfBasic : DF :=
  { name := Label.flat ""
    columns := [Label.flat "col_one", Label.flat "coltwo"]
    rows := [(Label.flat "foo", ["0", "1"]), (Label.flat "bar", ["2", "3"])] }

/-- A second dataset with a different column name and a cell containing an
escapable character. -/
def dfOther : DF :=
  { name := Label.flat ""
    columns := [Label.flat "other"]
    rows := [(Label.flat "r", ["x_y"])] }

/-- A default formatter whose `env` attribute is `'longtable'`. -/
def tfLong : TF := { env := "longtable" }

/-- The column specification produced for the default `coltype='lc'` on a
dataset with `n` data columns. -/
def specLC (df : DF) : String :=
  buildSpecFrom [] 0 ((expandColtype ['l', 'c'] df.columns.length).map String.singleton)

/-- The escape targets resolved for the default `escape=Escape.ALL`: all
four regions, with `Escape.CELLS` expanded to every column label. -/
def allTargets (df : DF) : ToEscape :=
  { name := true, columns := true, index := true, cells := true
    cols := df.columns.foldl (fun cs c => insertLabel c cs) [] }

/-- Specification-style restatement of the substitution contract: walk the
source text paired with its predecessor character; an occurrence of one of
the seven special characters whose predecessor in the source text is not a
backslash is replaced by a backslash-prefixed version, every other
character is copied. -/
def escapeSpecPairs (s : List Char) : List Char :=
  ((none :: s.map some).zip s).flatMap fun pc =>
    if pc.2 ∈ specials ∧ pc.1 ≠ some '\\' then ['\\', pc.2] else [pc.2]


/-! ## Helper lemmas -/

theorem strExt {a b : String} (h : a.data = b.data) : a = b := by
  cases a
  cases b
  exact congrArg String.mk h

theorem data_append (s t : String) : (s ++ t).data = s.data ++ t.data := by
  cases s
  cases t
  rfl

theorem escapeChars_eq_spec (l : List Char) : ∀ prev : Option Char,
    escapeChars prev l = ((prev :: l.map some).zip l).flatMap
      (fun pc => if pc.2 ∈ specials ∧ pc.1 ≠ some '\\' then ['\\', pc.2] else [pc.2]) := by
  induction l with
  | nil => intro prev; rfl
  | cons c rest ih =>
    intro prev
    by_cases h : c ∈ specials ∧ prev ≠ some '\\'
    · simp only [escapeChars, if_pos h, List.map_cons, List.zip_cons_cons,
        List.flatMap_cons, ih (some c)]
      simp [h]
    · simp only [escapeChars, if_neg h, List.map_cons, List.zip_cons_cons,
        List.flatMap_cons, ih (some c)]
      simp [h]

theorem escapeChars_idem (l : List Char) : ∀ prev : Option Char,
    escapeChars prev (escapeChars prev l) = escapeChars prev l := by
  induction l with
  | nil => intro prev; rfl
  | cons c rest ih =>
    intro prev
    by_cases h : c ∈ specials ∧ prev ≠ some '\\'
    · rw [escapeChars, if_pos h]
      rw [escapeChars, if_neg (by simp [specials])]
      rw [escapeChars, if_neg (by simp)]
      rw [ih (some c)]
    · rw [escapeChars, if_neg h]
      rw [escapeChars, if_neg h]
      rw [ih (some c)]

/-! ## Claim theorems -/

/-- C2: with escaping active, a non-tuple value is coerced to text and
every occurrence of one of the seven characters `# $ % & _ { }` that is
not immediately preceded by a backslash in the source text is replaced by
a backslash-prefixed version (the pairwise specification
`escapeSpecPairs`); in particular
`escape("foo#bar$foo%bar&foo_bar") = "foo\#bar\$foo\%bar\&foo\_bar"` and
`escape("foo___bar") = "foo\_\_\_bar"`. -/
theorem escape_replaces_unguarded_specials :
    (∀ s : String, escapeString s = String.mk (escapeSpecPairs s.data)) ∧
    escape (Label.flat "foo#bar$foo%bar&foo_bar") true =
      Label.flat "foo\\#bar\\$foo\\%bar\\&foo\\_bar" ∧
    escape (Label.flat "foo___bar") true = Label.flat "foo\\_\\_\\_bar" := by
  refine ⟨fun s => ?_, by decide, by decide⟩
  simp only [escapeString, escapeSpecPairs, escapeChars_eq_spec]

/-- C3: escaping never double-escapes: a special character already
preceded by a backslash is left unchanged, so `escape` is idempotent on
every label, and in particular escaping `foo\_bar` yields `foo\_bar`. -/
theorem escape_idempotent :
    (∀ l : Label, escape (escape l true) true = escape l true) ∧
    escape (Label.flat "foo\\_bar") true = Label.flat "foo\\_bar" := by
  constructor
  · intro l
    cases l with
    | flat s =>
      simp only [escape, escStr, if_true]
      exact congrArg Label.flat (congrArg String.mk (escapeChars_idem _ none))
    | multi ps =>
      simp only [escape, escStr, if_true, List.map_map]
      refine congrArg Label.multi (List.map_congr_left fun a _ => ?_)
      exact congrArg String.mk (escapeChars_idem _ none)
  · decide

theorem mem_insertLabel (l x : Label) (xs : List Label) :
    l ∈ insertLabel x xs ↔ l = x ∨ l ∈ xs := by
  unfold insertLabel
  by_cases h : x ∈ xs
  · rw [if_pos h]
    constructor
    · exact fun hm => Or.inr hm
    · rintro (rfl | hm)
      · exact h
      · exact hm
  · rw [if_neg h]
    simp [or_comm]

theorem resolveLoop_ok_spec (items : List EscItem) : ∀ (df : DF) (te0 : ToEscape)
    (d0 : Bool) (te1 : ToEscape) (d1 : Bool),
    resolveLoop df te0 d0 items = Except.ok (te1, d1) →
    d1 = (d0 || items.any fun e => match e with | EscItem.col _ => true | _ => false) ∧
    ∀ l, l ∈ te1.cols ↔ l ∈ te0.cols ∨ ∃ c, l = Label.flat c ∧ EscItem.col c ∈ items := by
  induction items with
  | nil =>
    intro df te0 d0 te1 d1 h
    simp only [resolveLoop, Except.ok.injEq, Prod.mk.injEq] at h
    obtain ⟨rfl, rfl⟩ := h
    constructor
    · simp
    · intro l
      simp
  | cons e rest ih =>
    intro df te0 d0 te1 d1 h
    cases e with
    | flag f =>
      simp only [resolveLoop] at h
      obtain ⟨hd, hcols⟩ := ih df (mergeFlag te0 f) d0 te1 d1 h
      constructor
      · simpa using hd
      · intro l
        rw [hcols l]
        simp [mergeFlag]
    | col s =>
      simp only [resolveLoop] at h
      by_cases hs : df.hasCol s = true
      · rw [if_pos hs] at h
        obtain ⟨hd, hcols⟩ := ih df (addCol te0 s) true te1 d1 h
        constructor
        · simp [hd]
        · intro l
          rw [hcols l]
          simp only [addCol, mem_insertLabel, List.mem_cons]
          constructor
          · rintro ((rfl | hm) | ⟨c, rfl, hcm⟩)
            · exact Or.inr ⟨s, rfl, Or.inl rfl⟩
            · exact Or.inl hm
            · exact Or.inr ⟨c, rfl, Or.inr hcm⟩
          · rintro (hm | ⟨c, rfl, hcm | hcm⟩)
            · exact Or.inl (Or.inr hm)
            · cases hcm
              exact Or.inl (Or.inl rfl)
            · exact Or.inr ⟨c, rfl, hcm⟩
      · rw [if_neg hs] at h
        simp at h

theorem resolveLoop_err (items : List EscItem) : ∀ (df : DF) (te0 : ToEscape) (d0 : Bool)
    (c : String), EscItem.col c ∈ items → df.hasCol c = false →
    isError (resolveLoop df te0 d0 items) = true := by
  induction items with
  | nil =>
    intro df te0 d0 c hc
    simp at hc
  | cons e rest ih =>
    intro df te0 d0 c hc hcol
    cases e with
    | flag f =>
      have hc' : EscItem.col c ∈ rest := by
        rcases List.mem_cons.mp hc with h1 | h1
        · cases h1
        · exact h1
      simpa only [resolveLoop] using ih df (mergeFlag te0 f) d0 c hc' hcol
    | col s =>
      by_cases hs : df.hasCol s = true
      · have hc' : EscItem.col c ∈ rest := by
          rcases List.mem_cons.mp hc with h1 | h1
          · cases h1
            rw [hcol] at hs
            cases hs
          · exact h1
        simpa only [resolveLoop, if_pos hs] using ih df (addCol te0 s) true c hc' hcol
      · simp only [resolveLoop, if_neg hs]
        rfl

/-- C6: whenever the escape selector contains an item naming an actual
column, the blanket `Escape.CELLS` marker is discarded, and the resolved
cell-escape column set contains exactly the explicitly named columns, so
all other data columns are left unescaped (a column's cells are escaped
iff its label is in `cols`, cf. `cellGo`). -/
theorem explicit_columns_override_cells (sel : List EscItem) (df : DF) (te : ToEscape)
    (c d : String) (h : resolveEscape sel df = Except.ok te) (hc : EscItem.col c ∈ sel) :
    te.cells = false ∧ (Label.flat d ∈ te.cols ↔ EscItem.col d ∈ sel) := by
  unfold resolveEscape at h
  cases hl : resolveLoop df {} false sel with
  | error e =>
    rw [hl] at h
    simp at h
  | ok p =>
    obtain ⟨te1, d1⟩ := p
    rw [hl] at h
    obtain ⟨hd, hcols⟩ := resolveLoop_ok_spec sel df {} false te1 d1 hl
    have hany : (sel.any fun e => match e with | EscItem.col _ => true | _ => false) = true :=
      List.any_eq_true.mpr ⟨EscItem.col c, hc, rfl⟩
    rw [hany, Bool.false_or] at hd
    subst hd
    simp only [if_true, if_pos] at h
    rw [if_neg (by simp)] at h
    simp only [Except.ok.injEq] at h
    subst h
    refine ⟨rfl, ?_⟩
    have h2 := hcols (Label.flat d)
    show Label.flat d ∈ te1.cols ↔ EscItem.col d ∈ sel
    constructor
    · intro hmem
      rcases h2.mp hmem with hm | ⟨c', hc', hm⟩
      · simp at hm
      · cases hc'
        exact hm
    · intro hm
      exact h2.mpr (Or.inr ⟨d, rfl, hm⟩)

/-- Witness for C6 at `escape=[Escape.ALL, 'coltwo']` on the basic
dataset: `cells` is dropped and `col_one` is not an escape target. -/
theorem explicit_columns_override_cells_w :
    resolveEscape [EscItem.flag EscFlag.ALL, EscItem.col "coltwo"] dfBasic =
      Except.ok { name := true, columns := true, index := true, cells := false
                  cols := [Label.flat "coltwo"] } ∧
    (({ name := true, columns := true, index := true, cells := false
        cols := [Label.flat "coltwo"] } : ToEscape).cells = false ∧
      (Label.flat "col_one" ∈
          ({ name := true, columns := true, index := true, cells := false
             cols := [Label.flat "coltwo"] } : ToEscape).cols ↔
        EscItem.col "col_one" ∈ [EscItem.flag EscFlag.ALL, EscItem.col "coltwo"])) :=
  ⟨rfl, explicit_columns_override_cells [EscItem.flag EscFlag.ALL, EscItem.col "coltwo"]
    dfBasic _ "coltwo" "col_one" rfl (by decide)⟩

/-- C7: an escape-selector item that is not an `Escape` flag value and
does not name an actual column of the dataset makes the escape-policy
resolution fail with a `ValueError` instead of being ignored. -/
theorem unknown_escape_target_errors (sel : List EscItem) (df : DF) (c : String)
    (hc : EscItem.col c ∈ sel) (hcol : df.hasCol c = false) :
    isError (resolveEscape sel df) = true := by
  have herr := resolveLoop_err sel df {} false c hc hcol
  unfold resolveEscape
  cases hl : resolveLoop df {} false sel with
  | error e => rfl
  | ok p =>
    rw [hl] at herr
    cases herr

/-- Witness for C7 at `escape=[Escape.ALL, 'colthree']` on the basic
dataset, which has no column `colthree`. -/
theorem unknown_escape_target_errors_w :
    EscItem.col "colthree" ∈ [EscItem.flag EscFlag.ALL, EscItem.col "colthree"] ∧
    dfBasic.hasCol "colthree" = false ∧
    isError (resolveEscape [EscItem.flag EscFlag.ALL, EscItem.col "colthree"] dfBasic) = true :=
  ⟨by decide, rfl,
    unknown_escape_target_errors [EscItem.flag EscFlag.ALL, EscItem.col "colthree"] dfBasic
      "colthree" (by decide) rfl⟩

theorem buildSpec_decomp (clines : List Nat) : ∀ (i : Nat) (ts : List String) (s : Nat),
    i < ts.length →
    buildSpecFrom clines s ts =
      buildSpecFrom clines s (ts.take i) ++
        ((if s + i ∈ clines then "|" else "") ++ ts.getD i "" ++
          buildSpecFrom clines (s + i + 1) (ts.drop (i + 1))) := by
  intro i
  induction i with
  | zero =>
    intro ts s h
    match ts, h with
    | t :: ts', _ =>
      show buildSpecFrom clines s (t :: ts') = _
      simp only [List.take_zero, List.getD_cons_zero, List.drop_succ_cons, List.drop_zero,
        buildSpecFrom, Nat.add_zero]
      apply strExt
      simp [data_append]
  | succ i ih =>
    intro ts s h
    match ts, h with
    | t :: ts', h =>
      have h' : i < ts'.length := by simpa using h
      show buildSpecFrom clines s (t :: ts') = _
      simp only [buildSpecFrom, List.take_succ_cons, List.getD_cons_succ, List.drop_succ_cons]
      rw [ih ts' (s + 1) h', show s + 1 + i = s + (i + 1) from by omega]
      apply strExt
      simp [data_append, List.append_assoc]

/-- A formatter whose `coltype` is the 4-character string `"abcd"`. -/
def tfStrColtype : TF := { coltype := Coltype.str "abcd" }

/-- A formatter whose `coltype` is the 4-token tuple of the test suite. -/
def tfSeqColtype : TF := { coltype := Coltype.seq ["a", "b", "c", "toomany"] }

/-- The formatter of the `coltype_cline` test: `coltype='rcl'`,
`clines={2, 3}`. -/
def tfRcl : TF := { coltype := Coltype.str "rcl", clines := [2, 3] }

/-- The lines actually produced for the basic dataset with the default
configuration. -/
def basicLines : List String :=
  ["\\begin\x7btabular\x7d\x7blcc\x7d", "\\toprule", " & col\\_one & coltwo \\\\",
    "\\midrule", "foo & 0 & 1 \\\\", "bar & 2 & 3 \\\\", "\\bottomrule",
    "\\end\x7btabular\x7d", ""]

/-- Counterexample to C1 as stated: the default escape policy escapes the
column labels, so the header line reads `" & col\_one & coltwo \\"`; the
sequence claimed by C1, with the literal header `" & col_one & coltwo \\"`,
is not produced. -/
theorem basic_header_not_unescaped :
    linesOf (formatRun defaultTF dfBasic) ≠
      ["\\begin\x7btabular\x7d\x7blcc\x7d", "\\toprule", " & col_one & coltwo \\\\",
        "\\midrule", "foo & 0 & 1 \\\\", "bar & 2 & 3 \\\\", "\\bottomrule",
        "\\end\x7btabular\x7d", ""] ∧
    (linesOf (formatRun defaultTF dfBasic)).getD 2 "" = " & col\\_one & coltwo \\\\" :=
  ⟨by decide, rfl⟩

/-- C1 (amended): formatting the basic dataset with the default
configuration produces exactly the environment-open line with spec `lcc`,
a top rule, the header line `" & col\_one & coltwo \\"` (with the
underscore of `col_one` escaped by the default ALL policy), a middle
rule, the two row lines, a bottom rule, the environment-close line, and
one blank line. -/
theorem basic_round_trip_output :
    formatRun defaultTF dfBasic =
      Except.ok (basicLines, { defaultTF with to_escape := none }, dfBasic) := rfl

/-- Counterexample to C4 as stated: the 4-character string `"abcd"` is a
non-compact coltype whose length differs from `2 + 1`, yet `_colspec`
accepts it unvalidated (only `list`/`tuple` coltypes are checked) and
formatting succeeds. -/
theorem str_coltype_length_not_validated :
    colspec tfStrColtype dfBasic = Except.ok "abcd" ∧
    isError (formatRun tfStrColtype dfBasic) = false := ⟨rfl, rfl⟩

/-- C4 (amended): a coltype supplied as an explicit `list`/`tuple`
sequence whose length differs from the data-column count plus one makes
formatting fail with a `ValueError` reporting the given length and the
expected length; string coltypes of length other than 2 are not
validated. -/
theorem seq_coltype_length_validated (tf : TF) (df : DF) (l : List String)
    (hc : tf.coltype = Coltype.seq l) (hl : l.length ≠ df.columns.length + 1) :
    colspec tf df = Except.error (coltypeLenErr l.length df.columns.length) ∧
    isError (formatRun tf df) = true := by
  have h1 : colspec tf df = Except.error (coltypeLenErr l.length df.columns.length) := by
    simp only [colspec, hc]
    rw [if_pos hl]
  refine ⟨h1, ?_⟩
  unfold formatRun
  rw [h1]
  rfl

set_option maxHeartbeats 1000000 in
/-- Witness for C4 at the test suite's 4-token tuple on the 2-column
basic dataset. -/
theorem seq_coltype_length_validated_w :
    tfSeqColtype.coltype = Coltype.seq ["a", "b", "c", "toomany"] ∧
    ["a", "b", "c", "toomany"].length ≠ dfBasic.columns.length + 1 ∧
    (colspec tfSeqColtype dfBasic = Except.error (coltypeLenErr 4 2) ∧
      isError (formatRun tfSeqColtype dfBasic) = true) := by
  refine ⟨rfl, by decide, ?_⟩
  exact seq_coltype_length_validated tfSeqColtype dfBasic _ rfl (by decide)

/-- Counterexample to C5 as stated: for `coltype='rcl'` and
`clines={2, 3}` on the 2-data-column dataset the built specification is
`"rc|l"`, which contains a single separator (before the token at
position 2); there is no token at position 3, so no second separator is
emitted, contrary to the claim that positions 2 and 3 each receive one. -/
theorem rcl_clines_positions_two_three :
    colspec tfRcl dfBasic = Except.ok "rc|l" ∧ ("rc|l".data.count '|') = 1 :=
  ⟨rfl, by decide⟩

/-- C5 (amended): a separator precedes exactly the type tokens that exist
and whose zero-based position is in `clines` (the decomposition below
shows the separator immediately before the token at any such position);
positions in `clines` beyond the last token are ignored, so
`coltype='rcl'` with `clines={2, 3}` yields `"rc|l"` with a single
separator, before position 2 only. -/
theorem colspec_bar_before_existing_positions :
    (∀ (clines : List Nat) (i : Nat) (ts : List String) (s : Nat), i < ts.length →
      buildSpecFrom clines s ts =
        buildSpecFrom clines s (ts.take i) ++
          ((if s + i ∈ clines then "|" else "") ++ ts.getD i "" ++
            buildSpecFrom clines (s + i + 1) (ts.drop (i + 1)))) ∧
    colspec tfRcl dfBasic = Except.ok "rc|l" :=
  ⟨fun clines i ts s h => buildSpec_decomp clines i ts s h, rfl⟩

/-- Witness for C5 at `clines = [2, 3]`, tokens `r`, `c`, `l`,
position 2. -/
theorem colspec_bar_before_existing_positions_w :
    buildSpecFrom [2, 3] 0 ["r", "c", "l"] =
      buildSpecFrom [2, 3] 0 (["r", "c", "l"].take 2) ++
        ((if 0 + 2 ∈ [2, 3] then "|" else "") ++ ["r", "c", "l"].getD 2 "" ++
          buildSpecFrom [2, 3] (0 + 2 + 1) (["r", "c", "l"].drop (2 + 1))) :=
  colspec_bar_before_existing_positions.1 [2, 3] 2 ["r", "c", "l"] 0 (by decide)

/-- Counterexample to C8 as stated: the `self._to_escape = None` reset
stands after the final `yield`, so a caller that consumes two lines of
`format(dfBasic)` and abandons the iteration leaves the resolved set on
the instance (`≠ none`); a subsequent `format` call on `dfOther` (whose
column names differ) observes that stale set and leaves the cell `x_y`
unescaped, where a fresh formatter escapes it to `x\_y`. -/
theorem abandoned_iteration_keeps_cache :
    toEscapeAfter defaultTF dfBasic 2 ≠ none ∧
    linesOf (formatRun { defaultTF with to_escape := toEscapeAfter defaultTF dfBasic 2 }
        dfOther) ≠
      linesOf (formatRun defaultTF dfOther) ∧
    (linesOf (formatRun { defaultTF with to_escape := toEscapeAfter defaultTF dfBasic 2 }
        dfOther)).getD 4 "" = "r & x_y \\\\" ∧
    (linesOf (formatRun defaultTF dfOther)).getD 4 "" = "r & x\\_y \\\\" :=
  ⟨by decide, by decide, rfl, rfl⟩

/-- C8 (amended): the resolved escape-target set is computed at most once
per formatting call (a cached set is reused, never recomputed), and it is
cleared exactly when the output iteration is run to exhaustion; when the
caller abandons the iteration after the header has been produced, the set
persists on the instance and the next call reuses it. -/
theorem cache_cleared_only_on_exhaustion :
    (∀ (tf : TF) (df : DF),
      Except.map (fun r => r.2.1.to_escape) (formatRun tf df) =
        Except.map (fun _ => (none : Option ToEscape)) (formatRun tf df)) ∧
    (∀ (tf : TF) (df : DF) (t : ToEscape), tf.to_escape = some t →
      cachedResolve tf df = Except.ok t) ∧
    (∀ (tf : TF) (df : DF) (k : Nat),
      tf.preamble.length + 1 + tf.before_header.length < k → k ≤ numLines tf df →
      toEscapeAfter tf df k = (cachedResolve tf df).toOption) := by
  refine ⟨?_, ?_, ?_⟩
  · intro tf df
    unfold formatRun
    cases colspec tf df with
    | error e => rfl
    | ok spec =>
      cases cachedResolve tf df with
      | error e => rfl
      | ok te => rfl
  · intro tf df t h
    unfold cachedResolve
    rw [h]
  · intro tf df k h1 h2
    unfold toEscapeAfter
    rw [if_neg (by omega), if_pos h2]

/-- Witness for C8 (amended) at the abandoned-iteration scenario of the
counterexample: two consumed lines are past the header computation and
within the nine produced lines, so the cached resolution persists. -/
theorem cache_cleared_only_on_exhaustion_w :
    (defaultTF.preamble.length + 1 + defaultTF.before_header.length < 2) ∧
    (2 ≤ numLines defaultTF dfBasic) ∧
    toEscapeAfter defaultTF dfBasic 2 = (cachedResolve defaultTF dfBasic).toOption :=
  ⟨by decide, by decide,
    cache_cleared_only_on_exhaustion.2.2 defaultTF dfBasic 2 (by decide) (by decide)⟩

/-- C10: formatting never mutates the caller-owned dataset: the
caller-visible dataset after any run equals the input, while the escaping
is applied to the copy built by `df.apply` — the produced row line for
`dfOther` carries the escaped cell `x\_y` even though the dataset still
holds the raw value `x_y`. -/
theorem format_leaves_dataset_unchanged :
    (∀ (tf : TF) (df : DF), returnedDf tf df = df) ∧
    (linesOf (formatRun defaultTF dfOther)).getD 4 "" = "r & x\\_y \\\\" ∧
    dfOther.rows = [(Label.flat "r", ["x_y"])] := by
  refine ⟨?_, rfl, rfl⟩
  intro tf df
  unfold returnedDf formatRun
  cases colspec tf df with
  | error e => rfl
  | ok spec =>
    cases cachedResolve tf df with
    | error e => rfl
    | ok te => rfl

theorem line_ne_bottomrule (entries : List String) : line entries ≠ "\\bottomrule" := by
  intro h
  have h2 := congrArg (fun s => s.data.reverse.get? 0) h
  simp only [line, data_append, List.reverse_append] at h2
  rw [show ((" \\\\" : String).data.reverse) = ['\\', '\\', ' '] from rfl] at h2
  have h3 : ∀ rest : List Char, (['\\', '\\', ' '] ++ rest).get? 0 = some '\\' := fun _ => rfl
  rw [h3] at h2
  exact absurd h2 (by decide)

theorem beginLong_ne_bottomrule (v : String) :
    ("\\begin\x7blongtable\x7d\x7b" ++ v ++ "\x7d") ≠ "\\bottomrule" := by
  intro h
  have h2 := congrArg (fun s => s.data.get? 2) h
  simp only [data_append, List.append_assoc] at h2
  have h3 : ∀ rest : List Char,
      (("\\begin\x7blongtable\x7d\x7b" : String).data ++ rest).get? 2 = some 'e' :=
    fun _ => rfl
  rw [h3] at h2
  exact absurd h2 (by decide)

theorem count_bottomrule_header (te : ToEscape) (df : DF) :
    (headerLines te df).count "\\bottomrule" = 0 := by
  rw [List.count_eq_zero]
  intro hm
  rcases List.mem_cons.mp hm with h1 | h1
  · exact line_ne_bottomrule _ h1.symm
  · simp at h1

theorem count_bottomrule_rows (te : ToEscape) (df : DF) :
    (df.rows.map (rowLine te df)).count "\\bottomrule" = 0 := by
  rw [List.count_eq_zero]
  intro hm
  rcases List.mem_map.mp hm with ⟨r, _, hr⟩
  exact line_ne_bottomrule _ hr

theorem formatRun_longtable (df : DF) :
    formatRun tfLong df = Except.ok (
      ["\\begin\x7blongtable\x7d\x7b" ++ specLC df ++ "\x7d", "\\toprule"] ++
        headerLines (allTargets df) df ++
        ["\\midrule", "\\endfirsthead", "\\toprule"] ++
        headerLines (allTargets df) df ++
        ["\\midrule", "\\endhead", "\\bottomrule", "\\endfoot"] ++
        df.rows.map (rowLine (allTargets df) df) ++
        ["\\end\x7blongtable\x7d", ""],
      { tfLong with to_escape := none }, df) := rfl

/-- C9: for every dataset formatted with the `longtable` environment, the
rendered header block appears exactly twice — once in the first-head
section and once in the repeat-head section — with identical text (the
same list `hdr` in both positions), and exactly one bottom rule occurs in
the whole output, at the `\endfoot` marker, with none after the data
rows. -/
theorem longtable_header_twice_one_bottomrule (df : DF) :
    ∃ (bLine : String) (hdr rows ls : List String),
      formatRun tfLong df = Except.ok (ls, { tfLong with to_escape := none }, df) ∧
      ls = [bLine, "\\toprule"] ++ hdr ++ ["\\midrule", "\\endfirsthead", "\\toprule"] ++
        hdr ++ ["\\midrule", "\\endhead", "\\bottomrule", "\\endfoot"] ++ rows ++
        ["\\end\x7blongtable\x7d", ""] ∧
      ls.count "\\bottomrule" = 1 := by
  refine ⟨"\\begin\x7blongtable\x7d\x7b" ++ specLC df ++ "\x7d",
    headerLines (allTargets df) df, df.rows.map (rowLine (allTargets df) df), _,
    formatRun_longtable df, rfl, ?_⟩
  simp only [List.count_append]
  rw [count_bottomrule_header, count_bottomrule_rows]
  have hb : (["\\begin\x7blongtable\x7d\x7b" ++ specLC df ++ "\x7d", "\\toprule"] :
      List String).count "\\bottomrule" = 0 := by
    rw [List.count_eq_zero]
    intro hm
    rcases List.mem_cons.mp hm with h1 | h1
    · exact beginLong_ne_bottomrule (specLC df) h1.symm
    · simp at h1
  rw [hb]
  rfl
